import Mathlib

/-!
Verification development for the Mirrarr media-download system.

The definitions below are shallow embeddings of the Python source:
app/services/search.py (fan-out aggregation and result ranking),
app/services/download_manager.py (download job queue, retry policy,
file renaming), and app/providers (the provider registry).

Python strings are modelled as Lean String (ASCII semantics for
lower-casing and the word-character class), Python ints as Int or Nat,
dictionaries as association lists with first-match lookup, and the
filesystem as an association list from paths to file contents.
-/

namespace Mirrarr

/-- Boolean test that the first character list starts the second. -/
def startsWithB : List Char → List Char → Bool
  | [], _ => true
  | _ :: _, [] => false
  | a :: as, b :: bs => a == b && startsWithB as bs

/-- Boolean test that the first character list occurs contiguously
inside the second. -/
def containsSeqB (needle : List Char) : List Char → Bool
  | [] => startsWithB needle []
  | b :: bs => startsWithB needle (b :: bs) || containsSeqB needle bs

/-- ASCII lower-casing, modelling Python str.lower charwise. -/
def pyLower (s : String) : String :=
  String.mk (s.data.map Char.toLower)

/-- Boolean substring test: Python needle in hay. -/
def substrB (needle hay : String) : Bool :=
  containsSeqB needle.data hay.data

/-- DownloadResult from app/providers/base.py. The quality field is
declared str in the source but the ranking code guards it with a Python
truthiness test, so it is modelled as Option String with none standing
for Python None (and some "" for the empty string). -/
structure DownloadResult where
  title : String
  quality : Option String
  size : Int
  download_url : String
  provider_name : String
  source_site : String
  filename : String
  season : Option Int
  episode : Option Int
deriving Repr, DecidableEq

/-- Quality tier of a result, from the substring cascade in
select_best_result (search.py lines 193-202 and 219-228): a falsy
quality defaults to the string 480p, the label is lower-cased, and then
2160/4k gives 4, 1080 gives 3, 720 gives 2, anything else 1. -/
def qualityTier (q : Option String) : Nat :=
  let quality : String :=
    match q with
    | none => "480p"
    | some s => if s = "" then "480p" else pyLower s
  if substrB ("2160") quality || substrB ("4k") quality then 4
  else if substrB ("1080") quality then 3
  else if substrB ("720") quality then 2
  else 1

/-- The quality_scores dictionary of select_best_result (search.py
lines 181-187). -/
def quality_scores : List (String × Nat) :=
  [("2160p", 4), ("4k", 4), ("1080p", 3), ("720p", 2), ("480p", 1)]

/-- limit_score (search.py lines 179 and 189): a falsy quality_limit
defaults to 2160p, the limit is lower-cased and looked up in
quality_scores with dictionary-get default 4. -/
def limitScore (ql : Option String) : Nat :=
  let q : String :=
    match ql with
    | none => "2160p"
    | some s => if s = "" then "2160p" else pyLower s
  (List.lookup q quality_scores).getD 4

/-- The is_pref component of the scoring key (search.py line 217):
1 when pref_provider is truthy (configured and non-empty) and the
provider name equals it under Python string equality (case-sensitive),
else 0. -/
def is_pref_score (pref : Option String) (r : DownloadResult) : Int :=
  match pref with
  | none => 0
  | some p => if p = "" then 0 else if r.provider_name = p then 1 else 0

/-- The scoring key of select_best_result.score (search.py line 230):
the tuple of is_pref, quality score and negated size. -/
def score (pref : Option String) (r : DownloadResult) : Int × Int × Int :=
  (is_pref_score pref r, (qualityTier r.quality : Int), -r.size)

/-- Strict lexicographic comparison on Python 3-tuples of numbers,
the order used by the built-in max over scoring keys. -/
def keyLt (a b : Int × Int × Int) : Bool :=
  decide (a.1 < b.1 ∨ (a.1 = b.1 ∧
    (a.2.1 < b.2.1 ∨ (a.2.1 = b.2.1 ∧ a.2.2 < b.2.2))))

/-- Python max(iterable, key) over a non-empty list h :: t: fold that
replaces the current best only when the candidate key is strictly
greater, so the first occurrence of the maximum key wins. -/
def pyMax {α : Type} (key : α → Int × Int × Int) (h : α) (t : List α) : α :=
  t.foldl (fun acc x => if keyLt (key acc) (key x) then x else acc) h

/-- The quality-limit filter predicate of select_best_result
(search.py line 204). -/
def qualityFilter (limit : Nat) (r : DownloadResult) : Bool :=
  decide (qualityTier r.quality ≤ limit)

/-- select_best_result (search.py lines 164-233): return none on an
empty input, filter by the quality limit, return none when the filter
empties the list, otherwise take the maximum of the score key. -/
def select_best_result (pref ql : Option String)
    (results : List DownloadResult) : Option DownloadResult :=
  if results.isEmpty then none
  else
    let limit := limitScore ql
    match results.filter (qualityFilter limit) with
    | [] => none
    | fh :: ft => some (pyMax (score pref) fh ft)

/-- Concrete fixture: a 1080p result of size 2000 from provider P1. -/
def exA : DownloadResult :=
  ⟨"A", some ("1080p"), 2000, "urlA", "P1", "S1", "", none, none⟩

/-- Concrete fixture: a 2160p result of size 5000 from provider P2. -/
def exB : DownloadResult :=
  ⟨"B", some ("2160p"), 5000, "urlB", "P2", "S2", "", none, none⟩

theorem keyLt_chain {a b c : Int × Int × Int}
    (h1 : keyLt a b = true) (h2 : keyLt c b = false) :
    keyLt a c = true ∧ keyLt c a = false := by
  obtain ⟨a1, a2, a3⟩ := a
  obtain ⟨b1, b2, b3⟩ := b
  obtain ⟨c1, c2, c3⟩ := c
  simp only [keyLt, decide_eq_true_eq, decide_eq_false_iff_not] at *
  omega

theorem keyLt_chain2 {a b c : Int × Int × Int}
    (h1 : keyLt a b = false) (h2 : keyLt a c = true) :
    keyLt b c = true ∧ keyLt c b = false := by
  obtain ⟨a1, a2, a3⟩ := a
  obtain ⟨b1, b2, b3⟩ := b
  obtain ⟨c1, c2, c3⟩ := c
  simp only [keyLt, decide_eq_true_eq, decide_eq_false_iff_not] at *
  omega

theorem keyLt_self (a : Int × Int × Int) : keyLt a a = false := by
  obtain ⟨a1, a2, a3⟩ := a
  simp only [keyLt, decide_eq_false_iff_not]
  omega

theorem pyMax_cons {α : Type} (key : α → Int × Int × Int) (h x : α)
    (t : List α) :
    pyMax key h (x :: t) =
      pyMax key (if keyLt (key h) (key x) then x else h) t := rfl

/-- Characterization of Python max with a key function over a
non-empty list: the returned element splits the list into a part
before it whose keys are strictly smaller, itself, and a remainder,
and no element of the list has a strictly larger key. -/
theorem pyMax_spec {α : Type} (key : α → Int × Int × Int) (h : α)
    (t : List α) :
    ∃ l1 l2, h :: t = l1 ++ pyMax key h t :: l2 ∧
      (∀ r ∈ h :: t, keyLt (key (pyMax key h t)) (key r) = false) ∧
      (∀ r ∈ l1, keyLt (key r) (key (pyMax key h t)) = true) := by
  induction t generalizing h with
  | nil =>
    refine ⟨[], [], rfl, ?_, by simp⟩
    intro r hr
    have : r = h := by simpa using hr
    subst this
    exact keyLt_self (key r)
  | cons x t ih =>
    cases hx : keyLt (key h) (key x) with
    | true =>
      have e : pyMax key h (x :: t) = pyMax key x t := by
        rw [pyMax_cons, hx]
        simp
      obtain ⟨l1, l2, hdec, hmax, hstrict⟩ := ih x
      have hxm : keyLt (key (pyMax key x t)) (key x) = false := by
        exact hmax x (by simp)
      refine ⟨h :: l1, l2, ?_, ?_, ?_⟩
      · rw [e, List.cons_append, ← hdec]
      · intro r hr
        rw [e]
        rcases List.mem_cons.mp hr with hr1 | hr2
        · subst hr1
          exact (keyLt_chain hx hxm).2
        · exact hmax r hr2
      · intro r hr
        rw [e]
        rcases List.mem_cons.mp hr with hr1 | hr2
        · subst hr1
          exact (keyLt_chain hx hxm).1
        · exact hstrict r hr2
    | false =>
      have e : pyMax key h (x :: t) = pyMax key h t := by
        rw [pyMax_cons, hx]
        simp
      obtain ⟨l1, l2, hdec, hmax, hstrict⟩ := ih h
      cases l1 with
      | nil =>
        have hm : pyMax key h t = h ∧ t = l2 := by
          constructor
          · exact (List.cons.injEq _ _ _ _ ▸ hdec).1.symm
          · exact (List.cons.injEq _ _ _ _ ▸ hdec).2
        refine ⟨[], x :: l2, ?_, ?_, by simp⟩
        · rw [e, hm.1, List.nil_append, ← hm.2]
        · intro r hr
          rw [e]
          rcases List.mem_cons.mp hr with hr1 | hr2
          · subst hr1
            exact hmax r (by simp)
          · rcases List.mem_cons.mp hr2 with hr3 | hr4
            · subst hr3
              rw [hm.1]
              exact hx
            · exact hmax r (by simp [hr4])
      | cons h1 l1' =>
        have hh1 : h1 = h := ((List.cons.injEq _ _ _ _).mp hdec).1.symm
        have ht : t = l1' ++ pyMax key h t :: l2 :=
          ((List.cons.injEq _ _ _ _).mp hdec).2
        have hhm : keyLt (key h) (key (pyMax key h t)) = true := by
          apply hstrict
          rw [hh1]
          simp
        have hxm := keyLt_chain2 hx hhm
        refine ⟨h :: x :: l1', l2, ?_, ?_, ?_⟩
        · rw [e]
          simp only [List.cons_append]
          rw [← ht]
        · intro r hr
          rw [e]
          rcases List.mem_cons.mp hr with hr1 | hr2
          · subst hr1
            exact hmax r (by simp)
          · rcases List.mem_cons.mp hr2 with hr3 | hr4
            · subst hr3
              exact hxm.2
            · exact hmax r (by simp [hr4])
        · intro r hr
          rw [e]
          rcases List.mem_cons.mp hr with hr1 | hr2
          · subst hr1
            exact hhm
          · rcases List.mem_cons.mp hr2 with hr3 | hr4
            · subst hr3
              exact hxm.1
            · apply hstrict
              rw [hh1]
              simp [hr4]

/-- C1: on a non-empty list of results surviving the quality-limit
filter, select_best_result returns the element that is maximal under
lexicographic order on the score key (is_preferred, quality tier,
negated size), and among key-ties the survivor appearing first in the
input order is returned: the filtered list splits as l1 plus b plus l2
with every key in l1 strictly below the key of b, and no surviving
result has a key strictly above the key of b. -/
theorem select_best_result_lex_max (pref ql : Option String)
    (results : List DownloadResult) (b : DownloadResult)
    (hb : select_best_result pref ql results = some b) :
    ∃ l1 l2,
      results.filter (qualityFilter (limitScore ql)) = l1 ++ b :: l2 ∧
      (∀ r ∈ results.filter (qualityFilter (limitScore ql)),
        keyLt (score pref b) (score pref r) = false) ∧
      (∀ r ∈ l1, keyLt (score pref r) (score pref b) = true) := by
  unfold select_best_result at hb
  cases he : results.isEmpty with
  | true => rw [he] at hb; simp at hb
  | false =>
    rw [he] at hb
    simp only [Bool.false_eq_true, if_false] at hb
    cases hf : results.filter (qualityFilter (limitScore ql)) with
    | nil => rw [hf] at hb; simp at hb
    | cons fh ft =>
      rw [hf] at hb
      simp only [Option.some.injEq] at hb
      subst hb
      exact pyMax_spec (score pref) fh ft

/-- Witness for C1 at a concrete two-result input with quality limit
2160p: the 2160p result exB is selected over the 1080p result exA. -/
theorem select_best_result_lex_max_witness :
    ∃ l1 l2,
      [exA, exB].filter (qualityFilter (limitScore (some ("2160p")))) =
        l1 ++ exB :: l2 ∧
      (∀ r ∈ [exA, exB].filter (qualityFilter (limitScore (some ("2160p")))),
        keyLt (score none exB) (score none r) = false) ∧
      (∀ r ∈ l1, keyLt (score none r) (score none exB) = true) :=
  select_best_result_lex_max none (some ("2160p")) [exA, exB] exB (by decide)

theorem pyMax_mem {α : Type} (key : α → Int × Int × Int) (h : α)
    (t : List α) : pyMax key h t ∈ h :: t := by
  obtain ⟨l1, l2, hdec, _, _⟩ := pyMax_spec key h t
  rw [hdec]
  simp

theorem lookup_quality_scores_pos (q : String) :
    1 ≤ (List.lookup q quality_scores).getD 4 := by
  simp only [quality_scores, List.lookup]
  repeat' split
  all_goals simp

theorem limitScore_pos (ql : Option String) : 1 ≤ limitScore ql := by
  unfold limitScore
  cases ql with
  | none => exact lookup_quality_scores_pos _
  | some s => exact lookup_quality_scores_pos _

/-- C2 fails as stated: with the configured quality limit 360p (a
member of the fixed limit set), select_best_result returns the 2160p
result exB, whose derived quality tier 4 exceeds the derived tier 1 of
the 360p limit, because the limit lookup table has no entry for 360p
and defaults to 4. -/
theorem select_best_result_quality_limit_counterexample :
    select_best_result none (some ("360p")) [exB] = some exB ∧
    qualityTier exB.quality = 4 ∧
    qualityTier (some ("360p")) = 1 ∧
    limitScore (some ("360p")) = 4 ∧
    ¬ qualityTier exB.quality ≤ qualityTier (some ("360p")) := by
  decide

/-- C2 (amended): select_best_result never returns a result whose
derived quality tier exceeds the configured limit score, where the
recognized limits 2160p, 1080p, 720p and 480p map to their own tiers
4, 3, 2 and 1, while the limits 360p and 240p are missing from the
limit table and fall back to 4 (so they do not filter anything); an
empty input list returns none, and an input whose results are all
removed by the quality-limit filter returns none rather than raising
an error. -/
theorem select_best_result_quality_limit (pref ql : Option String)
    (results : List DownloadResult) :
    (∀ b, select_best_result pref ql results = some b →
      qualityTier b.quality ≤ limitScore ql) ∧
    (limitScore (some ("2160p")) = 4 ∧ limitScore (some ("1080p")) = 3 ∧
     limitScore (some ("720p")) = 2 ∧ limitScore (some ("480p")) = 1 ∧
     limitScore (some ("360p")) = 4 ∧ limitScore (some ("240p")) = 4) ∧
    select_best_result pref ql [] = none ∧
    (results.filter (qualityFilter (limitScore ql)) = [] →
      select_best_result pref ql results = none) := by
  refine ⟨?_, by decide, by rfl, ?_⟩
  · intro b hb
    unfold select_best_result at hb
    cases he : results.isEmpty with
    | true => rw [he] at hb; simp at hb
    | false =>
      rw [he] at hb
      simp only [Bool.false_eq_true, if_false] at hb
      cases hf : results.filter (qualityFilter (limitScore ql)) with
      | nil => rw [hf] at hb; simp at hb
      | cons fh ft =>
        rw [hf] at hb
        simp only [Option.some.injEq] at hb
        subst hb
        have hmem : pyMax (score pref) fh ft ∈ fh :: ft :=
          pyMax_mem (score pref) fh ft
        rw [← hf] at hmem
        have hflt := List.of_mem_filter hmem
        simpa [qualityFilter] using hflt
  · intro hempty
    simp [select_best_result, hempty]

/-- Witness for C2 at a concrete input: with limit 1080p the selected
result exA has tier within the limit score. -/
theorem select_best_result_quality_limit_witness :
    qualityTier exA.quality ≤ limitScore (some ("1080p")) :=
  (select_best_result_quality_limit none (some ("1080p")) [exA, exB]).1
    exA (by decide)

/-- C3 fails as stated: a quality label containing 360p derives tier 1
(the default branch), not the claimed tier 0; the code has no branch
producing 0. -/
theorem qualityTier_counterexample :
    qualityTier (some ("360p")) = 1 ∧ qualityTier (some ("360p")) ≠ 0 := by
  decide

/-- C3 (amended): the derived quality tier lies in 1-4 and equals 4
when the lower-cased label contains 2160 or 4k, else 3 when it
contains 1080, else 2 when it contains 720, and 1 for anything else,
including labels containing 360p or 240p; a missing or empty label
also derives tier 1. -/
theorem qualityTier_spec_amended (q : Option String) :
    (1 ≤ qualityTier q ∧ qualityTier q ≤ 4) ∧
    (∀ s, q = some s → s ≠ "" →
      ((substrB ("2160") (pyLower s) || substrB ("4k") (pyLower s)) = true →
        qualityTier q = 4) ∧
      ((substrB ("2160") (pyLower s) || substrB ("4k") (pyLower s)) = false →
        substrB ("1080") (pyLower s) = true → qualityTier q = 3) ∧
      ((substrB ("2160") (pyLower s) || substrB ("4k") (pyLower s)) = false →
        substrB ("1080") (pyLower s) = false →
        substrB ("720") (pyLower s) = true → qualityTier q = 2) ∧
      ((substrB ("2160") (pyLower s) || substrB ("4k") (pyLower s)) = false →
        substrB ("1080") (pyLower s) = false →
        substrB ("720") (pyLower s) = false → qualityTier q = 1)) ∧
    ((q = none ∨ q = some ("")) → qualityTier q = 1) := by
  refine ⟨?_, ?_, ?_⟩
  · cases q with
    | none => decide
    | some s =>
      by_cases hs : s = ""
      · subst hs
        decide
      · unfold qualityTier
        simp only [hs, if_false]
        split_ifs <;> simp
  · intro s hq hs
    subst hq
    refine ⟨?_, ?_, ?_, ?_⟩
    · intro h1
      simp [qualityTier, hs, h1]
    · intro h1 h2
      simp only [Bool.or_eq_false_iff] at h1
      simp [qualityTier, hs, h1.1, h1.2, h2]
    · intro h1 h2 h3
      simp only [Bool.or_eq_false_iff] at h1
      simp [qualityTier, hs, h1.1, h1.2, h2, h3]
    · intro h1 h2 h3
      simp only [Bool.or_eq_false_iff] at h1
      simp [qualityTier, hs, h1.1, h1.2, h2, h3]
  · rintro (h | h) <;> subst h <;> decide

/-- Witness for C3 (amended) at concrete labels: 1080p derives tier 3. -/
theorem qualityTier_spec_amended_witness :
    qualityTier (some ("1080p")) = 3 :=
  ((qualityTier_spec_amended (some ("1080p"))).2.1 "1080p" rfl (by decide)).2.1
    (by decide) (by decide)

/-- C4 fails as stated: with preferred source p1 configured and a
result whose provider name P1 equals it case-insensitively, the
is_pref component is 0, because the code compares provider names
case-sensitively. -/
theorem is_pref_score_counterexample :
    is_pref_score (some ("p1")) exA = 0 ∧
    pyLower exA.provider_name = pyLower ("p1") ∧
    ("p1" : String) ≠ "" := by
  decide

/-- C4 (amended): the is_pref component of the scoring key is 1 exactly
when a non-empty preferred source is configured and the result's
provider name equals it under case-sensitive string equality; with no
preference configured it is 0 for every result, and it is the first
component of the scoring key. -/
theorem is_pref_score_spec (pref : Option String) (r : DownloadResult) :
    (is_pref_score pref r = 1 ↔
      ∃ p, pref = some p ∧ p ≠ "" ∧ r.provider_name = p) ∧
    (pref = none → is_pref_score pref r = 0) ∧
    (score pref r).1 = is_pref_score pref r := by
  refine ⟨?_, ?_, rfl⟩
  · cases pref with
    | none => simp [is_pref_score]
    | some p =>
      by_cases hp : p = ""
      · subst hp
        simp [is_pref_score]
      · by_cases hn : r.provider_name = p <;>
          simp [is_pref_score, hp, hn]
  · rintro rfl
    rfl

/-- Witness for C4 at a concrete input: preferred source P2 matches
the provider name of exB exactly, giving is_pref 1. -/
theorem is_pref_score_spec_witness :
    is_pref_score (some ("P2")) exB = 1 :=
  (is_pref_score_spec (some ("P2")) exB).1.mpr ⟨"P2", rfl, by decide, rfl⟩

/-- Concrete fixture: a result with no quality label. -/
def exNoQ : DownloadResult :=
  ⟨"N", none, 100, "urlN", "P3", "S3", "", none, none⟩

/-- C10: a result whose quality is None or the empty string derives
the default tier 1 (the tier of an unrecognized label), every
configured limit has limit score at least 1, so such a result always
survives the quality-limit filter and competes in selection with tier
component 1 in its scoring key. -/
theorem qualityTier_default_falsy (pref ql : Option String)
    (results : List DownloadResult) (r : DownloadResult) :
    qualityTier none = 1 ∧ qualityTier (some ("")) = 1 ∧
    1 ≤ limitScore ql ∧
    ((r.quality = none ∨ r.quality = some ("")) → r ∈ results →
      r ∈ results.filter (qualityFilter (limitScore ql)) ∧
      (score pref r).2.1 = 1) := by
  refine ⟨by decide, by decide, limitScore_pos ql, ?_⟩
  intro hq hmem
  have h1 : qualityTier r.quality = 1 := by
    rcases hq with h | h <;> rw [h] <;> decide
  constructor
  · refine List.mem_filter.mpr ⟨hmem, ?_⟩
    simp only [qualityFilter, h1, decide_eq_true_eq]
    exact limitScore_pos ql
  · simp [score, h1]

/-- Witness for C10 at a concrete input: the label-free result exNoQ
survives the default-limit filter and scores tier 1. -/
theorem qualityTier_default_falsy_witness :
    exNoQ ∈ [exNoQ].filter (qualityFilter (limitScore none)) ∧
    (score none exNoQ).2.1 = 1 :=
  (qualityTier_default_falsy none none [exNoQ] exNoQ).2.2.2
    (Or.inl rfl) (by simp)

/-- Retry delay schedule of _run_yt_dlp (download_manager.py line 244). -/
def retry_delays : List Nat := [5, 10, 20, 40, 80]

/-- max_retries, the length of the delay schedule (line 245). -/
def max_retries : Nat := retry_delays.length

/-- Rate-limit classifier of the failure branch (line 270). -/
def is_rate_limit (m : String) : Bool :=
  substrB ("429") m || substrB ("Too Many Requests") m

/-- Timeout classifier of the failure branch (lines 271-275). -/
def is_timeout (m : String) : Bool :=
  substrB ("timed out") (pyLower m) || substrB ("timeout") (pyLower m) ||
    substrB ("Read timed out") m

/-- Result of the failure branch of _run_yt_dlp: the retry delay
returned to the worker (None when the job is terminal), and the status
and error fields written to the job's status record. -/
structure FailureOutcome where
  retry_delay : Option Nat
  status : String
  error : String
deriving Repr, DecidableEq

/-- The failure branch of DownloadManager._run_yt_dlp (lines 267-299):
retry when the stripped error message indicates a rate limit or a
timeout and the attempt count is below max_retries, with the delay
taken from the schedule at the current attempt index and a
remaining-attempts message; otherwise mark the job as a terminal error
carrying the captured message. -/
def handle_download_error (error_msg : String) (attempt : Nat) :
    FailureOutcome :=
  let should_retry := is_rate_limit error_msg || is_timeout error_msg
  if should_retry && decide (attempt < max_retries) then
    let remaining := max_retries - attempt
    let retry_delay := retry_delays.getD attempt 0
    let reason :=
      if is_rate_limit error_msg then "Rate limited" else "Timed out"
    ⟨some retry_delay, "retrying",
      reason ++ ". Retrying in " ++ toString retry_delay ++ "s... (" ++
        toString remaining ++ " left)"⟩
  else
    ⟨none, "error", error_msg⟩

/-- DownloadJob (download_manager.py lines 76-84); a missing attempt
key reads as 0, so attempt is a plain Nat starting at 0. -/
structure DownloadJob where
  id : String
  url : String
  opts : List (String × String)
  custom_filename : Option String
  attempt : Nat
  metadata : Option (List (String × String))
deriving Repr, DecidableEq

/-- _requeue_job (lines 179-183): after sleeping for the delay the job
returns to the queue with its attempt counter incremented once. -/
def requeue_job (job : DownloadJob) : DownloadJob :=
  { job with attempt := job.attempt + 1 }

/-- Concrete fixture: a job as created by add_download. -/
def exJob : DownloadJob :=
  ⟨"job-1", "http://example.com/v.mp4", [], none, 0, none⟩

/-- Outcome of a single provider's fetch task as observed by the
aggregator: a result list, a raised exception, or a timeout. -/
inductive FetchOutcome where
  | ok (results : List DownloadResult)
  | error
  | timeout
deriving Repr, DecidableEq

/-- fetch_from_provider (search.py lines 31-41 and 71-85): the task's
results on success, while a timeout or exception is caught locally and
contributes the empty list. -/
def fetch_from_provider : FetchOutcome → List DownloadResult
  | .ok rs => rs
  | .error => []
  | .timeout => []

/-- The gather-and-merge of get_provider_results_for_movie and
get_provider_results_for_episode (search.py lines 43-51 and 87-95):
all per-provider outcomes are collected, then an accumulator list is
extended with each recovered result list in order. -/
def aggregate_results (outcomes : List FetchOutcome) :
    List DownloadResult :=
  (outcomes.map fetch_from_provider).foldl (fun acc l => acc ++ l) []

/-- ProviderRegistry.get (app/providers package, lines 18-21), over a
registry modelled as an association list from provider names to the
provider's fetch behavior. -/
def registry_get (reg : List (String × FetchOutcome)) (name : String) :
    Option FetchOutcome :=
  List.lookup name reg

/-- Result-list computation of get_single_provider_results_for_movie
(search.py lines 98-126): when the name is registered the provider is
queried with local error recovery, and when it is not the result list
simply stays empty — the function returns normally either way. -/
def get_single_provider_results (reg : List (String × FetchOutcome))
    (name : String) : List DownloadResult :=
  match registry_get reg name with
  | none => []
  | some o => fetch_from_provider o

/-- DownloadStatus (download_manager.py lines 60-73); NotRequired or
null fields are modelled as Option with none for absent. -/
structure DStatus where
  id : String
  url : String
  status : String
  percent : String
  filename : Option String
  title : Option String
  speed : Option String
  eta : Option String
  total_bytes : Option String
  error : Option String
  metadata : Option (List (String × String))
deriving Repr, DecidableEq

/-- The download manager state visible to add_download: the global
download_status table and the job queue. -/
structure ManagerState where
  download_status : List (String × DStatus)
  queue : List DownloadJob
deriving Repr, DecidableEq

/-- DownloadManager.add_download (lines 301-342): build the initial
queued status record (filename present only for a truthy custom
filename), store it in the status table, append the job to the queue,
and return the generated id. The freshly generated uuid is passed in
as download_id. -/
def add_download (st : ManagerState) (download_id url : String)
    (client_opts : Option (List (String × String)))
    (custom_filename : Option String)
    (metadata : Option (List (String × String))) :
    String × ManagerState :=
  let new_status : DStatus :=
    { id := download_id, url := url, status := "queued", percent := "0%",
      filename :=
        match custom_filename with
        | some s => if s = "" then none else some s
        | none => none,
      title := none, speed := none, eta := none, total_bytes := none,
      error := none, metadata := metadata }
  let job : DownloadJob :=
    { id := download_id, url := url, opts := client_opts.getD [],
      custom_filename := custom_filename, attempt := 0,
      metadata := metadata }
  (download_id,
    { download_status := (download_id, new_status) :: st.download_status,
      queue := st.queue ++ [job] })

/-- Safe filename characters: the class kept by the re.sub in
_rename_downloaded_file — ASCII word characters, dots and hyphens. -/
def safeChar (c : Char) : Bool :=
  c.isAlphanum || c == '_' || c == '.' || c == '-'

/-- Splitting a character list at every slash, so that joining the
components with slashes recovers the original list. -/
def splitSlash : List Char → List (List Char)
  | [] => [[]]
  | c :: cs =>
    if c == '/' then [] :: splitSlash cs
    else
      match splitSlash cs with
      | [] => [[c]]
      | h :: t => (c :: h) :: t

/-- Joining slash-separated components back into one character list. -/
def joinSlash : List (List Char) → List Char
  | [] => []
  | [x] => x
  | x :: xs => x ++ '/' :: joinSlash xs

/-- basename: the last slash-separated component of a POSIX path,
modelling os.path.basename. -/
def basename (p : String) : String :=
  String.mk ((splitSlash p.data).getLastD [])

/-- dirname: all but the last slash-separated component of a POSIX
path, modelling os.path.dirname on the single-slash paths appearing
here. -/
def dirname (p : String) : String :=
  String.mk (joinSlash ((splitSlash p.data).dropLast))

/-- os.path.join of a directory and a slash-free filename. -/
def joinPath (d f : String) : String :=
  if d = "" then f
  else if (d.data.getLastD (' ')) == '/' then d ++ f
  else d ++ "/" ++ f

/-- Sanitization in _rename_downloaded_file (line 41): every character
outside the safe class is replaced by an underscore. -/
def sanitize_filename (s : String) : String :=
  String.mk (s.data.map (fun c => if safeChar c then c else '_'))

/-- _rename_downloaded_file (download_manager.py lines 30-57) over a
filesystem modelled as an association list from paths to contents; the
possibility that shutil.move itself raises is the external input
move_fails. Returns the new path on success (None otherwise) together
with the resulting filesystem; the move replaces any file already at
the target path. -/
def rename_downloaded_file (fs : List (String × String))
    (downloaded_file custom_filename : String) (move_fails : Bool) :
    Option String × List (String × String) :=
  if downloaded_file = "" then (none, fs)
  else
    match List.lookup downloaded_file fs with
    | none => (none, fs)
    | some content =>
      let name := sanitize_filename (basename custom_filename)
      if name = "" then (none, fs)
      else
        let new_path := joinPath (dirname downloaded_file) name
        if move_fails then (none, fs)
        else
          (some new_path,
            (new_path, content) ::
              fs.filter (fun kv => !(kv.1 == downloaded_file)))

/-- Success branch of _run_yt_dlp after the transfer (lines 251-264):
the filename is updated only when the rename produced a new path, then
the job is marked completed with percent 100% and a cleared error. -/
def finish_success (st : DStatus) (rename_result : Option String) :
    DStatus :=
  let st1 :=
    match rename_result with
    | some p => { st with filename := some p }
    | none => st
  { st1 with status := "completed", percent := "100%", error := none }

theorem max_retries_eq : max_retries = 5 := rfl

/-- C5: a transfer failure with message m at attempt a becomes a
retrying status with delay retry_delays[a] and a message naming the
remaining attempts exactly when m matches the rate-limit or timeout
classifiers and a is below the budget of 5; every other failure
becomes a terminal error status carrying the captured message, and a
re-submission increments the attempt counter exactly once. -/
theorem handle_download_error_spec (m : String) (a : Nat)
    (job : DownloadJob) :
    ((handle_download_error m a).status = "retrying" ↔
      ((is_rate_limit m || is_timeout m) = true ∧ a < 5)) ∧
    ((is_rate_limit m || is_timeout m) = true → a < 5 →
      (handle_download_error m a).retry_delay =
        some (retry_delays.getD a 0) ∧
      substrB (toString (5 - a) ++ " left")
        (handle_download_error m a).error = true) ∧
    (((is_rate_limit m || is_timeout m) = false ∨ 5 ≤ a) →
      (handle_download_error m a).status = "error" ∧
      (handle_download_error m a).error = m ∧
      (handle_download_error m a).retry_delay = none) ∧
    (requeue_job job).attempt = job.attempt + 1 := by
  refine ⟨?_, ?_, ?_, rfl⟩
  · cases hb : (is_rate_limit m || is_timeout m) with
    | true =>
      by_cases ha : a < 5
      · simp [handle_download_error, hb, max_retries_eq, ha]
      · simp [handle_download_error, hb, max_retries_eq, ha]
    | false =>
      simp [handle_download_error, hb, max_retries_eq]
  · intro hb ha
    constructor
    · simp [handle_download_error, hb, max_retries_eq, ha]
    · cases hrl : is_rate_limit m with
      | true =>
        interval_cases a <;>
          simp [handle_download_error, hb, hrl, max_retries_eq,
            retry_delays] <;>
          decide
      | false =>
        have htm : is_timeout m = true := by
          simpa [hrl] using hb
        interval_cases a <;>
          simp [handle_download_error, hb, hrl, htm, max_retries_eq,
            retry_delays] <;>
          decide
  · intro hcond
    rcases hcond with hb | ha
    · simp [handle_download_error, hb]
    · have hna : ¬ a < 5 := by omega
      cases hb : (is_rate_limit m || is_timeout m) <;>
        simp [handle_download_error, hb, max_retries_eq, hna]

/-- Witness for C5 at a concrete rate-limited failure on attempt 1:
the job retries after the second scheduled delay with a message naming
the 4 remaining attempts, and a requeue increments the counter. -/
theorem handle_download_error_spec_witness :
    ((handle_download_error ("HTTP Error 429") 1).retry_delay =
      some (retry_delays.getD 1 0) ∧
    substrB (toString (5 - 1) ++ " left")
      (handle_download_error ("HTTP Error 429") 1).error = true) ∧
    (requeue_job exJob).attempt = exJob.attempt + 1 :=
  ⟨(handle_download_error_spec ("HTTP Error 429") 1 exJob).2.1
      (by decide) (by decide),
    (handle_download_error_spec ("HTTP Error 429") 1 exJob).2.2.2⟩

/-- C6: the aggregation merge equals the concatenation of the result
lists of the successful providers alone — every failing or timed-out
provider contributes exactly the empty list — and the merge is a total
function of the complete outcome list, so it is computed only once
every provider task has reached a terminal outcome. -/
theorem aggregate_results_isolation (outcomes : List FetchOutcome) :
    aggregate_results outcomes =
      (outcomes.filterMap (fun o =>
        match o with
        | FetchOutcome.ok rs => some rs
        | FetchOutcome.error => none
        | FetchOutcome.timeout => none)).flatten ∧
    fetch_from_provider FetchOutcome.error = [] ∧
    fetch_from_provider FetchOutcome.timeout = [] := by
  refine ⟨?_, rfl, rfl⟩
  have hfold : ∀ (ls : List (List DownloadResult))
      (acc : List DownloadResult),
      ls.foldl (fun a l => a ++ l) acc = acc ++ ls.flatten := by
    intro ls
    induction ls with
    | nil => intro acc; simp
    | cons l ls ih => intro acc; simp [ih, List.append_assoc]
  unfold aggregate_results
  rw [hfold, List.nil_append]
  induction outcomes with
  | nil => rfl
  | cons o os ih =>
    cases o <;> simp [fetch_from_provider, ih]

/-- Concrete registry fixture with a single provider named A. -/
def exRegistry : List (String × FetchOutcome) :=
  [("A", FetchOutcome.ok [exA])]

/-- C7 fails as stated: looking up the unregistered provider name B
yields nothing, yet the single-provider search returns the normal
empty result list instead of failing explicitly. -/
theorem get_single_provider_results_counterexample :
    registry_get exRegistry "B" = none ∧
    get_single_provider_results exRegistry "B" = [] := by
  decide

/-- C7 (amended): for every provider name that is not registered, the
single-provider search silently returns a normal empty result list
(together with the fetched media record) rather than failing. -/
theorem get_single_provider_results_unregistered
    (reg : List (String × FetchOutcome)) (name : String)
    (h : registry_get reg name = none) :
    get_single_provider_results reg name = [] := by
  unfold get_single_provider_results
  rw [h]

/-- Witness for C7 (amended) on the empty registry. -/
theorem get_single_provider_results_unregistered_witness :
    get_single_provider_results [] "X" = [] :=
  get_single_provider_results_unregistered [] "X" (by decide)

/-- C8: add_download returns the generated job id, and before
returning it has synchronously stored a queued status entry for that
id with percent 0%, the submitted url and metadata, while only
appending the job to the queue (no execution) and leaving every other
id's status entry untouched. -/
theorem add_download_spec (st : ManagerState) (id url : String)
    (opts : Option (List (String × String))) (fn : Option String)
    (md : Option (List (String × String))) :
    (add_download st id url opts fn md).1 = id ∧
    List.lookup id (add_download st id url opts fn md).2.download_status =
      some
        { id := id, url := url, status := "queued", percent := "0%",
          filename :=
            match fn with
            | some s => if s = "" then none else some s
            | none => none,
          title := none, speed := none, eta := none, total_bytes := none,
          error := none, metadata := md } ∧
    (add_download st id url opts fn md).2.queue =
      st.queue ++
        [{ id := id, url := url, opts := opts.getD [],
           custom_filename := fn, attempt := 0, metadata := md }] ∧
    (∀ j, j ≠ id →
      List.lookup j (add_download st id url opts fn md).2.download_status =
        List.lookup j st.download_status) := by
  refine ⟨rfl, ?_, rfl, ?_⟩
  · simp [add_download, List.lookup]
  · intro j hj
    have hne : (j == id) = false := by
      simp [hj]
    simp [add_download, List.lookup, hne]

/-- Witness for C8 at a concrete submission into an empty manager:
the status lookup of an unrelated id is unchanged. -/
theorem add_download_spec_witness :
    List.lookup "other"
      (add_download ⟨[], []⟩ "id1" "http://u" none none none).2.download_status =
      List.lookup "other" ([] : List (String × DStatus)) :=
  (add_download_spec ⟨[], []⟩ "id1" "http://u" none none none).2.2.2
    "other" (by decide)

theorem sanitize_filename_safe (s : String) :
    (sanitize_filename s).data.all safeChar = true := by
  unfold sanitize_filename
  rw [List.all_eq_true]
  intro c hc
  obtain ⟨c0, _, rfl⟩ := List.mem_map.mp hc
  by_cases h : safeChar c0 = true
  · simp [h]
  · simp only [h, Bool.false_eq_true, if_false]
    decide

/-- Concrete filesystem fixture: the downloaded file plus a
pre-existing file at the rename target path. -/
def exFS : List (String × String) :=
  [("/downloads/video.mp4", "NEW"), ("/downloads/b", "OLD")]

/-- C9 fails as stated on the collision clause: the rename target
already exists on the filesystem, yet the rename proceeds and silently
replaces the old content instead of rejecting the collision. -/
theorem rename_downloaded_file_counterexample :
    List.lookup ("/downloads/b") exFS = some "OLD" ∧
    (rename_downloaded_file exFS ("/downloads/video.mp4") ("b") false).1 =
      some "/downloads/b" ∧
    List.lookup ("/downloads/b")
      (rename_downloaded_file exFS ("/downloads/video.mp4") ("b") false).2 =
      some "NEW" := by
  decide

/-- C9 (amended): a successful rename always targets the join of the
downloaded file's own directory with a non-empty name drawn purely
from the safe character class (so path traversal input is reduced to a
sanitized basename: "../../etc/passwd" yields exactly the name
passwd); collisions are not rejected — an existing file at the target
is silently overwritten; a failed or refused rename leaves the
filesystem unchanged, and the job still finishes completed with
percent 100% and a cleared error, keeping its previous filename. -/
theorem rename_downloaded_file_spec (fs : List (String × String))
    (df custom : String) (mf : Bool) :
    (∀ p fs2, rename_downloaded_file fs df custom mf = (some p, fs2) →
      ∃ n, n ≠ "" ∧ n.data.all safeChar = true ∧
        p = joinPath (dirname df) n) ∧
    sanitize_filename (basename ("../../etc/passwd")) = "passwd" ∧
    (∀ fs2, rename_downloaded_file fs df custom mf = (none, fs2) →
      fs2 = fs) ∧
    (∀ st : DStatus,
      (finish_success st none).filename = st.filename ∧
      ∀ ro : Option String,
        (finish_success st ro).status = "completed" ∧
        (finish_success st ro).percent = "100%" ∧
        (finish_success st ro).error = none) := by
  refine ⟨?_, by decide, ?_, ?_⟩
  · intro p fs2 hp
    unfold rename_downloaded_file at hp
    by_cases hdf : df = ""
    · simp [hdf] at hp
    · simp only [hdf, if_false] at hp
      cases hlk : List.lookup df fs with
      | none => rw [hlk] at hp; simp at hp
      | some content =>
        rw [hlk] at hp
        simp only at hp
        by_cases hname : sanitize_filename (basename custom) = ""
        · simp [hname] at hp
        · simp only [hname, if_false] at hp
          cases mf with
          | true => simp at hp
          | false =>
            simp only [Bool.false_eq_true, if_false,
              Prod.mk.injEq, Option.some.injEq] at hp
            exact ⟨sanitize_filename (basename custom), hname,
              sanitize_filename_safe (basename custom), hp.1.symm⟩
  · intro fs2 hp
    unfold rename_downloaded_file at hp
    by_cases hdf : df = ""
    · simp [hdf] at hp
      exact hp.symm
    · simp only [hdf, if_false] at hp
      cases hlk : List.lookup df fs with
      | none =>
        rw [hlk] at hp
        simp at hp
        exact hp.symm
      | some content =>
        rw [hlk] at hp
        simp only at hp
        by_cases hname : sanitize_filename (basename custom) = ""
        · simp [hname] at hp
          exact hp.symm
        · simp only [hname, if_false] at hp
          cases mf with
          | true =>
            simp at hp
            exact hp.symm
          | false => simp at hp
  · intro st
    refine ⟨rfl, ?_⟩
    intro ro
    cases ro <;> exact ⟨rfl, rfl, rfl⟩

/-- Witness for C9 at the traversal input on a one-file filesystem:
the produced path is the sanitized basename joined to the original
directory. -/
theorem rename_downloaded_file_spec_witness :
    ∃ n, n ≠ "" ∧ n.data.all safeChar = true ∧
      "/downloads/passwd" =
        joinPath (dirname ("/downloads/video.mp4")) n :=
  (rename_downloaded_file_spec [("/downloads/video.mp4", "DATA")]
      ("/downloads/video.mp4") ("../../etc/passwd") false).1
    "/downloads/passwd" [("/downloads/passwd", "DATA")] (by decide)

end Mirrarr
